import Mathlib

/-!
Shallow embedding of the DiscordDB document store (BullShitProd/DiscordDB).

The embedded code is `src/core/DiscordRepository.ts` (CRUD over a message
gateway) and the relevant parts of `src/core/DiscordClient.ts` (the gateway
primitives).  Payloads are JSON values; a JavaScript object is modelled as an
insertion-ordered association list of string keys, and the object-literal
spread `{ a, ...v }` is modelled key-by-key with JavaScript's property-set
semantics (overwrite in place, append if new).  Message bodies on the wire are
either a JSON envelope (what `JSON.stringify` produced, which `JSON.parse`
inverts) or corrupt text on which `JSON.parse` throws.  Asynchronous calls
that can reject are modelled in `Except String`; a `try/catch` in the source
becomes a `match` on that result.  The unbounded `while (true)` pagination
loop of `findAll` is given explicit fuel.
-/

set_option autoImplicit false

/-- A JSON value (`JSON.parse` result / `JSON.stringify` argument).
Objects keep their key order, as JavaScript objects do. -/
inductive Json where
  | null
  | bool (b : Bool)
  | num (n : Int)
  | str (s : String)
  | arr (elems : List Json)
  | obj (fields : List (String × Json))
  deriving Repr

/-- A JavaScript object: insertion-ordered fields. -/
abbrev JsObject := List (String × Json)

/-- Wire form of a message body: either a JSON envelope carrying the value it
encodes (`JSON.parse` recovers it), or text on which `JSON.parse` throws. -/
inductive Wire where
  | json (v : Json)
  | corrupt (s : String)
  deriving Repr

/-- A platform message: id plus body (`message.id`, `message.content`). -/
structure Message where
  id : String
  content : Wire
  deriving Repr

/-- Semantics of `JSON.parse` on a wire body: the encoded value, or failure
(the thrown `SyntaxError`) on corrupt text. -/
def parseContent : Wire → Option Json
  | .json v => some v
  | .corrupt _ => none

/-- JavaScript property assignment `o[k] = v` on an ordered object: overwrite
in place when the key exists, append otherwise. -/
def setKey : JsObject → String → Json → JsObject
  | [], k, v => [(k, v)]
  | (k', v') :: rest, k, v =>
    if k' = k then (k', v) :: rest else (k', v') :: setKey rest k v

/-- Copy a list of entries into an object left to right, as object-literal
spread does with the own enumerable properties of its operand. -/
def spreadEntries (acc : JsObject) (entries : JsObject) : JsObject :=
  entries.foldl (fun a p => setKey a p.1 p.2) acc

/-- Own enumerable string-keyed properties contributed by `...v` in an object
literal: an object's fields; index keys for arrays and strings; nothing for
`null`, booleans and numbers. -/
def enumEntries : Json → JsObject
  | .obj fields => fields
  | .arr elems => elems.enum.map (fun p => (toString p.1, p.2))
  | .str s => s.toList.enum.map (fun p => (toString p.1, Json.str (String.singleton p.2)))
  | _ => []

/-- Object-literal spread `{ ...acc, ...v }` restricted to one operand `v`:
spread `v`'s own enumerable entries into `acc`. -/
def spreadInto (acc : JsObject) (v : Json) : JsObject :=
  spreadEntries acc (enumEntries v)

/-- First-key lookup on an ordered object (property read `o[k]`). -/
def getKey : JsObject → String → Option Json
  | [], _ => none
  | (k', v') :: rest, k => if k' = k then some v' else getKey rest k

/-- Whether a JSON value is a scalar that is not a string: `null`, a boolean
or a number.  Spreading such a value into an object literal contributes no
keys. -/
def Json.isScalar : Json → Bool
  | .null => true
  | .bool _ => true
  | .num _ => true
  | _ => false

/-- Whether all keys of an object are distinct, as holds for every object
produced by `JSON.parse`. -/
def keysDistinct : JsObject → Bool
  | [] => true
  | (k, _) :: rest => !(rest.any (fun p => p.1 = k)) && keysDistinct rest

namespace DiscordClient

/-- Embedding of `DiscordClient.fetchMessageById` (src/core/DiscordClient.ts):
`channel.messages.fetch(messageId)` either resolves with the message or
rejects (with some error text); the `try/catch` turns every rejection into
`null`. -/
def fetchMessageById (raw : Except String Message) : Option Message :=
  match raw with
  | .ok m => some m
  | .error _ => none

end DiscordClient

namespace DiscordRepository

/-- Document construction `{ id: message.id, ...data }` from
`DiscordRepository.findAll` / `findById`: bind `id` first, then spread the
parsed payload over it (a payload key named `id` therefore overwrites it). -/
def mkDoc (id : String) (data : Json) : JsObject :=
  spreadInto [("id", Json.str id)] data

/-- One message of a page, as `findAll` processes it: `JSON.parse` the body
and build the document, or skip (`continue`) on parse failure. -/
def parseDoc (m : Message) : Option JsObject :=
  (parseContent m.content).map (mkDoc m.id)

/-- Pagination cursor `fetchedMessages.last()?.id`: the id of the last message
of the page, if any. -/
def cursorOf (page : List Message) : Option String :=
  page.getLast?.map Message.id

/-- The `while (true)` loop body of `DiscordRepository.findAll`, with explicit
fuel, abstracting `discordClient.fetchMessages(channel, lastMessageId)` as
`fetch`.   Alongside the accumulated results it records the cursor argument of
every fetch call, in call order. -/
def findAllGo (fetch : Option String → List Message) :
    Nat → Option String → List JsObject → List (Option String) →
    List JsObject × List (Option String)
  | 0, _, results, calls => (results, calls)
  | fuel + 1, cursor, results, calls =>
    let page := fetch cursor
    if page.length = 0 then
      (results, calls ++ [cursor])
    else
      let results' := results ++ page.filterMap parseDoc
      if page.length < 100 then
        (results', calls ++ [cursor])
      else
        findAllGo fetch fuel (cursorOf page) results' (calls ++ [cursor])

/-- Embedding of `DiscordRepository.findAll`: run the loop from no cursor with
empty accumulators.  First component: the returned documents; second: the
trace of fetch-call cursors. -/
def findAll (fetch : Option String → List Message) (fuel : Nat) :
    List JsObject × List (Option String) :=
  findAllGo fetch fuel none [] []

/-- The messages the `findAll` loop reads, in fetch order: nothing once fuel
is exhausted; nothing from an empty page (the loop breaks before processing);
a short page is the final batch; a full page is followed by the messages of
the remaining iterations.  This mirrors the recursion of `findAllGo` and
serves as its specification. -/
def pagesRead (fetch : Option String → List Message) :
    Nat → Option String → List Message
  | 0, _ => []
  | fuel + 1, cursor =>
    let page := fetch cursor
    if page.length = 0 then []
    else if page.length < 100 then page
    else page ++ pagesRead fetch fuel (cursorOf page)

/-- Embedding of `DiscordRepository.findById`, abstracting the (already
normalized, never-throwing) result of `fetchMessageById` as `fetched`:
absent message gives `null`; otherwise parse and build the document, parse
failure caught to `null`. -/
def findById (fetched : Option Message) : Option JsObject :=
  match fetched with
  | none => none
  | some m =>
    match parseContent m.content with
    | none => none
    | some data => some (mkDoc m.id data)

/-- Composition of the gateway lookup and the repository `findById`, as the
call path `findById → fetchMessageById` executes it. -/
def findByIdFromRaw (raw : Except String Message) : Option JsObject :=
  findById (DiscordClient.fetchMessageById raw)

/-- Shallow merge `{ ...existingData, ...data }` of `DiscordRepository.update`:
spread the existing value into an empty literal, then spread the update over
it. -/
def shallowMerge (existingData data : Json) : JsObject :=
  spreadInto (spreadInto [] existingData) data

/-- Embedding of `DiscordRepository.update`, abstracting the fetched message
and the outcome of the `editMessage` call.  The `try { ... } catch { return
false }` of the source appears as the `.ok false` results of the parse-failure
and edit-rejection branches.  First component: the returned value (`.ok`
throughout, since every failure inside the `try` is caught); second: the
bodies passed to the edit primitive, recording whether it was invoked. -/
def update (fetched : Option Message) (editOutcome : Except String Unit)
    (data : Json) : Except String Bool × List Wire :=
  match fetched with
  | none => (.ok false, [])
  | some m =>
    match parseContent m.content with
    | none => (.ok false, [])
    | some existingData =>
      let sent := Wire.json (Json.obj (shallowMerge existingData data))
      match editOutcome with
      | .ok _ => (.ok true, [sent])
      | .error _ => (.ok false, [sent])

/-- Embedding of `DiscordRepository.delete`, abstracting the fetched message
and the outcome of the `deleteMessage` call.  No `try/catch` here: a rejection
of the delete primitive propagates as the overall result.  Second component:
how many times the delete primitive was invoked. -/
def delete (fetched : Option Message) (deleteOutcome : Except String Unit) :
    Except String Bool × Nat :=
  match fetched with
  | none => (.ok false, 0)
  | some _ =>
    match deleteOutcome with
    | .ok _ => (.ok true, 1)
    | .error e => (.error e, 1)

end DiscordRepository

/-- A collection's backing channel: its messages in fetch order, plus the
platform's counter for the next assigned message id. -/
structure Chan where
  msgs : List Message
  nextId : Nat

/-- The id the platform will assign to the next message sent to `c`. -/
def Chan.freshId (c : Chan) : String :=
  toString c.nextId

/-- Gateway `sendMessage`: post a body, get back the platform-assigned id. -/
def Chan.send (c : Chan) (w : Wire) : String × Chan :=
  (c.freshId, ⟨c.msgs ++ [⟨c.freshId, w⟩], c.nextId + 1⟩)

/-- Gateway fetch-by-id against the channel state (the success path of
`channel.messages.fetch(messageId)`). -/
def Chan.fetchById (c : Chan) (id : String) : Option Message :=
  c.msgs.find? (fun m => m.id = id)

namespace DiscordRepository

/-- Embedding of `DiscordRepository.insert` against a channel state:
`JSON.stringify` the payload (producing the envelope that parses back to it)
and send it; return the new message id and the updated channel. -/
def insert (c : Chan) (data : Json) : String × Chan :=
  c.send (Wire.json data)

/-- The repository `findById` run against a channel state. -/
def findByIdChan (c : Chan) (id : String) : Option JsObject :=
  findById (c.fetchById id)

end DiscordRepository

/-- A concrete full page of 100 messages (ids "0" … "99"). -/
def pageA : List Message :=
  (List.range 100).map (fun i => ⟨toString i, Wire.json Json.null⟩)

/-- A concrete second full page of 100 messages (ids "100" … "199"). -/
def pageB : List Message :=
  (List.range 100).map (fun i => ⟨toString (100 + i), Wire.json Json.null⟩)

/-- A concrete short page of 37 messages (ids "200" … "236"). -/
def pageC : List Message :=
  (List.range 37).map (fun i => ⟨toString (200 + i), Wire.json Json.null⟩)

/-- A concrete gateway history serving `pageA`, then `pageB` after the cursor
of `pageA`, then `pageC` after the cursor of `pageB`. -/
def fetchABC : Option String → List Message :=
  fun c =>
    if c = none then pageA
    else if c = DiscordRepository.cursorOf pageA then pageB
    else if c = DiscordRepository.cursorOf pageB then pageC
    else []

/-! Helper lemmas about ordered-object lookup, assignment and spread. -/

/-- Property assignment changes exactly the assigned key. -/
theorem getKey_setKey (acc : JsObject) (k₁ k : String) (v₁ : Json) :
    getKey (setKey acc k₁ v₁) k = if k₁ = k then some v₁ else getKey acc k := by
  induction acc with
  | nil => simp [setKey, getKey]
  | cons p rest ih =>
    obtain ⟨k', v'⟩ := p
    by_cases hk : k' = k₁
    · subst hk
      by_cases hk2 : k' = k <;> simp [setKey, getKey, hk2]
    · by_cases hk2 : k' = k
      · subst hk2
        have hne : ¬ (k₁ = k') := fun h => hk h.symm
        simp [setKey, getKey, hk, hne]
      · simp [setKey, getKey, hk, hk2, ih]

/-- Lookup on an appended object reads the left part first. -/
theorem getKey_append (l₁ l₂ : JsObject) (k : String) :
    getKey (l₁ ++ l₂) k = (getKey l₁ k).or (getKey l₂ k) := by
  induction l₁ with
  | nil => simp [getKey]
  | cons p rest ih =>
    obtain ⟨k', v'⟩ := p
    by_cases hk : k' = k <;> simp [getKey, hk, ih]

/-- Lookup after a spread: the spread entries win with last-occurrence
priority (lookup in the reversed entry list), falling back to the
accumulator. -/
theorem getKey_spreadEntries (es acc : JsObject) (k : String) :
    getKey (spreadEntries acc es) k = (getKey es.reverse k).or (getKey acc k) := by
  induction es generalizing acc with
  | nil => simp [spreadEntries, getKey]
  | cons p rest ih =>
    obtain ⟨k₁, v₁⟩ := p
    have step : spreadEntries acc ((k₁, v₁) :: rest) =
        spreadEntries (setKey acc k₁ v₁) rest := rfl
    rw [step, ih, List.reverse_cons, getKey_append, getKey_setKey]
    cases getKey rest.reverse k with
    | some w => simp
    | none =>
      by_cases hk : k₁ = k <;> simp [getKey, hk]

/-- A key that appears nowhere in the object reads as absent. -/
theorem getKey_eq_none_of_not_mem (l : JsObject) (k : String)
    (h : l.any (fun p => p.1 = k) = false) : getKey l k = none := by
  induction l with
  | nil => rfl
  | cons p rest ih =>
    simp only [List.any_cons, Bool.or_eq_false_iff] at h
    obtain ⟨k', v'⟩ := p
    have hk : ¬ (k' = k) := by simpa using h.1
    simp [getKey, hk, ih h.2]

/-- With distinct keys, first-key and last-key lookup agree, so lookup is
stable under reversal. -/
theorem getKey_reverse (l : JsObject) (k : String)
    (h : keysDistinct l = true) : getKey l.reverse k = getKey l k := by
  induction l with
  | nil => rfl
  | cons p rest ih =>
    obtain ⟨k₁, v₁⟩ := p
    simp only [keysDistinct, Bool.and_eq_true, Bool.not_eq_true'] at h
    rw [List.reverse_cons, getKey_append, ih h.2]
    by_cases hk : k₁ = k
    · subst hk
      rw [getKey_eq_none_of_not_mem rest k₁ h.1]
      simp [getKey]
    · cases hrest : getKey rest k <;> simp [getKey, hk, hrest]

/-- Top-level lookup on the shallow merge of two well-formed objects: the
update's value when its key is present, the existing value otherwise (values
carried wholesale, with no recursion into nested objects). -/
theorem getKey_shallowMerge (E D : JsObject) (k : String)
    (hE : keysDistinct E = true) (hD : keysDistinct D = true) :
    getKey (DiscordRepository.shallowMerge (.obj E) (.obj D)) k =
      (getKey D k).or (getKey E k) := by
  have step : DiscordRepository.shallowMerge (.obj E) (.obj D) =
      spreadEntries (spreadEntries [] E) D := rfl
  rw [step, getKey_spreadEntries, getKey_spreadEntries,
    getKey_reverse E k hE, getKey_reverse D k hD]
  cases getKey D k <;> simp [getKey]

namespace DiscordRepository

/-- Unfolding of one iteration of the `findAll` loop. -/
theorem findAllGo_succ (fetch : Option String → List Message) (m : Nat)
    (cursor : Option String) (results : List JsObject)
    (calls : List (Option String)) :
    findAllGo fetch (m + 1) cursor results calls =
      (let page := fetch cursor
       if page.length = 0 then
        (results, calls ++ [cursor])
      else
        let results' := results ++ page.filterMap parseDoc
        if page.length < 100 then
          (results', calls ++ [cursor])
        else
          findAllGo fetch m (cursorOf page) results' (calls ++ [cursor])) := rfl

/-- Unfolding of one iteration of `pagesRead`. -/
theorem pagesRead_succ (fetch : Option String → List Message) (m : Nat)
    (cursor : Option String) :
    pagesRead fetch (m + 1) cursor =
      (let page := fetch cursor
       if page.length = 0 then []
       else if page.length < 100 then page
       else page ++ pagesRead fetch m (cursorOf page)) := rfl

/-- The documents accumulated by the `findAll` loop are exactly the
successful parses of the messages it reads, appended to the accumulator. -/
theorem findAllGo_results (fetch : Option String → List Message) :
    ∀ (fuel : Nat) (cursor : Option String) (results : List JsObject)
      (calls : List (Option String)),
      (findAllGo fetch fuel cursor results calls).1 =
        results ++ (pagesRead fetch fuel cursor).filterMap parseDoc := by
  intro fuel
  induction fuel with
  | zero => intro cursor results calls; simp [findAllGo, pagesRead]
  | succ m ih =>
    intro cursor results calls
    rw [findAllGo_succ, pagesRead_succ]
    by_cases h0 : (fetch cursor).length = 0
    · simp [h0]
    · by_cases h100 : (fetch cursor).length < 100
      · simp [h0, h100]
      · simp only [h0, h100, if_false, if_neg h0, if_neg h100, ih,
          List.filterMap_append, List.append_assoc]

/-- The number of successful parses among a batch of messages. -/
theorem length_filterMap_parseDoc (l : List Message) :
    (l.filterMap parseDoc).length = l.countP (fun m => (parseDoc m).isSome) := by
  induction l with
  | nil => rfl
  | cons m rest ih =>
    cases hp : parseDoc m <;>
      simp [List.filterMap_cons, List.countP_cons, hp, ih]

end DiscordRepository

namespace DiscordRepository

/-- C1: round-trip — for every collection state and JSON payload `P`,
inserting `P` and looking up the returned id with `findById` yields the
document `{ id: <that id>, ...P }` (the id bound first, the payload spread
over it), provided the platform-assigned id is fresh for the channel. -/
theorem insert_findById_roundtrip (c : Chan) (P : Json)
    (hfresh : c.fetchById c.freshId = none) :
    findByIdChan (insert c P).2 (insert c P).1 =
      some (mkDoc (insert c P).1 P) := by
  have hmsgs : (insert c P).2.msgs = c.msgs ++ [⟨c.freshId, Wire.json P⟩] := rfl
  have hid : (insert c P).1 = c.freshId := rfl
  rw [findByIdChan, hid]
  show findById (Chan.fetchById (insert c P).2 c.freshId) = _
  rw [Chan.fetchById, hmsgs, List.find?_append]
  have h0 : c.msgs.find? (fun m => m.id = c.freshId) = none := hfresh
  rw [h0]
  simp [List.find?, findById, parseContent]

/-- Witness for C1 at the empty channel and payload `{"a": 1}`. -/
theorem insert_findById_roundtrip_witness :
    (Chan.fetchById ⟨[], 0⟩ (Chan.freshId ⟨[], 0⟩) = none) ∧
    findByIdChan (insert ⟨[], 0⟩ (Json.obj [("a", Json.num 1)])).2
        (insert ⟨[], 0⟩ (Json.obj [("a", Json.num 1)])).1 =
      some (mkDoc (insert ⟨[], 0⟩ (Json.obj [("a", Json.num 1)])).1
        (Json.obj [("a", Json.num 1)])) :=
  ⟨rfl, insert_findById_roundtrip ⟨[], 0⟩ (Json.obj [("a", Json.num 1)]) rfl⟩

/-- C2 counterexample: inserting the payload `{"id": "zzz", "a": 1}` into an
empty collection assigns message id "0", keeps the payload's `id` field in
the wire envelope (it is not stripped on write), and `findById` then returns
a document whose `id` is the payload's "zzz", not the message id "0". -/
theorem id_separation_cex :
    (insert ⟨[], 0⟩ (Json.obj [("id", Json.str "zzz"), ("a", Json.num 1)])).1 = "0" ∧
    (insert ⟨[], 0⟩ (Json.obj [("id", Json.str "zzz"), ("a", Json.num 1)])).2.msgs.map
        Message.content =
      [Wire.json (Json.obj [("id", Json.str "zzz"), ("a", Json.num 1)])] ∧
    (findByIdChan (insert ⟨[], 0⟩
          (Json.obj [("id", Json.str "zzz"), ("a", Json.num 1)])).2 "0").map
        (fun d => getKey d "id") = some (some (Json.str "zzz")) ∧
    ¬ ((findByIdChan (insert ⟨[], 0⟩
          (Json.obj [("id", Json.str "zzz"), ("a", Json.num 1)])).2 "0").map
        (fun d => getKey d "id") = some (some (Json.str "0"))) := by
  refine ⟨rfl, rfl, rfl, fun hcontra => ?_⟩
  have h' : some (some (Json.str "zzz")) = some (some (Json.str "0")) := hcontra
  have h2 : Json.str "zzz" = Json.str "0" := by
    injection h' with h3
    injection h3 with h4
  injection h2 with h5
  exact absurd h5 (by decide)

/-- C2 amended: writes serialize the payload as-is — `insert` puts the
unmodified envelope of `P` on the wire and `update` sends the shallow merge,
neither stripping a top-level `id` key — and reads bind `id` to the message
id first and then spread the stored payload over it, so the synthesized id
survives exactly when the stored payload has no top-level `id` key, the
payload's own value winning otherwise. -/
theorem id_separation_amended (c : Chan) (P : Json) (id : String)
    (fs ds : JsObject) (hfs : keysDistinct fs = true)
    (hds : keysDistinct ds = true) :
    (insert c P).2.msgs = c.msgs ++ [⟨c.freshId, Wire.json P⟩] ∧
    getKey (mkDoc id (.obj fs)) "id" = (getKey fs "id").or (some (Json.str id)) ∧
    getKey (shallowMerge (.obj fs) (.obj ds)) "id" =
      (getKey ds "id").or (getKey fs "id") := by
  refine ⟨rfl, ?_, getKey_shallowMerge fs ds "id" hfs hds⟩
  have step : mkDoc id (.obj fs) = spreadEntries [("id", Json.str id)] fs := rfl
  rw [step, getKey_spreadEntries, getKey_reverse fs "id" hfs]
  simp [getKey]

/-- Witness for the amended C2 at a payload that does carry an `id` key. -/
theorem id_separation_amended_witness :
    keysDistinct [("id", Json.str "zzz")] = true ∧
    keysDistinct [("b", Json.num 2)] = true ∧
    ((insert ⟨[], 0⟩ (Json.obj [("id", Json.str "zzz")])).2.msgs =
        [] ++ [⟨Chan.freshId ⟨[], 0⟩, Wire.json (Json.obj [("id", Json.str "zzz")])⟩] ∧
      getKey (mkDoc "5" (.obj [("id", Json.str "zzz")])) "id" =
        (getKey [("id", Json.str "zzz")] "id").or (some (Json.str "5")) ∧
      getKey (shallowMerge (.obj [("id", Json.str "zzz")]) (.obj [("b", Json.num 2)])) "id" =
        (getKey [("b", Json.num 2)] "id").or (getKey [("id", Json.str "zzz")] "id")) :=
  ⟨rfl, rfl, id_separation_amended ⟨[], 0⟩ (Json.obj [("id", Json.str "zzz")]) "5"
    [("id", Json.str "zzz")] [("b", Json.num 2)] rfl rfl⟩

end DiscordRepository

namespace DiscordRepository

/-- C3: pagination protocol — for every gateway returning a 100-page, then a
100-page at the cursor of the first, then a 37-page at the cursor of the
second, `findAll` makes exactly three fetch calls: the first with no cursor,
the second with the id of the last message of page 1, the third with the id
of the last message of page 2, and stops after the short page with no fourth
call (for any remaining fuel). -/
theorem findAll_pagination (fetch : Option String → List Message)
    (p1 p2 p3 : List Message) (n : Nat)
    (h1 : p1.length = 100) (h2 : p2.length = 100) (h3 : p3.length = 37)
    (f1 : fetch none = p1) (f2 : fetch (cursorOf p1) = p2)
    (f3 : fetch (cursorOf p2) = p3) :
    (findAll fetch (n + 3)).2 = [none, cursorOf p1, cursorOf p2] := by
  have e : n + 3 = ((n + 2) + 1) := rfl
  show (findAllGo fetch (n + 3) none [] []).2 = _
  rw [e, findAllGo_succ]
  simp only [f1, h1]
  norm_num
  rw [findAllGo_succ]
  simp only [f2, h2]
  norm_num
  rw [findAllGo_succ]
  simp only [f3, h3]
  norm_num

/-- Witness for C3 on the concrete three-page history `fetchABC`. -/
theorem findAll_pagination_witness :
    pageA.length = 100 ∧ pageB.length = 100 ∧ pageC.length = 37 ∧
    fetchABC none = pageA ∧ fetchABC (cursorOf pageA) = pageB ∧
    fetchABC (cursorOf pageB) = pageC ∧
    (findAll fetchABC 3).2 = [none, cursorOf pageA, cursorOf pageB] :=
  ⟨rfl, rfl, rfl, rfl, rfl, rfl,
    findAll_pagination fetchABC pageA pageB pageC 0 rfl rfl rfl rfl rfl rfl⟩

/-- C6: corrupt-envelope skipping — for every gateway and fuel, the documents
`findAll` returns are exactly the successful parses of the messages it read,
taken in fetch order (corrupt envelopes silently excluded, relative order of
the survivors preserved, no error raised), and their number is the count of
messages whose envelope parses. -/
theorem findAll_skips_corrupt (fetch : Option String → List Message)
    (fuel : Nat) :
    (findAll fetch fuel).1 = (pagesRead fetch fuel none).filterMap parseDoc ∧
    (findAll fetch fuel).1.length =
      (pagesRead fetch fuel none).countP (fun m => (parseDoc m).isSome) := by
  have h1 : (findAll fetch fuel).1 =
      (pagesRead fetch fuel none).filterMap parseDoc := by
    simpa [findAll] using findAllGo_results fetch fuel none [] []
  exact ⟨h1, by rw [h1, length_filterMap_parseDoc]⟩

/-- C4: shallow-merge semantics of update — on an existing message holding
object `E`, updating with object `D` succeeds, sends exactly the envelope of
the shallow merge of `E` and `D` to the edit primitive, and each top-level
key of the merge reads as `D`'s value when `D` has the key and `E`'s
otherwise, the values carried wholesale (no recursive merge of nested
objects). -/
theorem update_shallow_merge (id : String) (E D : JsObject) (k : String)
    (hE : keysDistinct E = true) (hD : keysDistinct D = true) :
    (update (some ⟨id, .json (.obj E)⟩) (.ok ()) (.obj D)).1 = .ok true ∧
    (update (some ⟨id, .json (.obj E)⟩) (.ok ()) (.obj D)).2 =
      [Wire.json (.obj (shallowMerge (.obj E) (.obj D)))] ∧
    getKey (shallowMerge (.obj E) (.obj D)) k = (getKey D k).or (getKey E k) :=
  ⟨rfl, rfl, getKey_shallowMerge E D k hE hD⟩

/-- Witness for C4 at the nested example: merging `{u:{x:1,y:2}}` with
`{u:{x:9}}` stores `{u:{x:9}}` (wholesale replacement), and the flat example
`{a:1,b:2}` with `{b:3}` stores `{a:1,b:3}`. -/
theorem update_shallow_merge_witness :
    keysDistinct [("u", Json.obj [("x", Json.num 1), ("y", Json.num 2)])] = true ∧
    keysDistinct [("u", Json.obj [("x", Json.num 9)])] = true ∧
    ((update (some ⟨"1", .json (.obj [("u", Json.obj [("x", Json.num 1), ("y", Json.num 2)])])⟩)
        (.ok ()) (.obj [("u", Json.obj [("x", Json.num 9)])])).1 = .ok true ∧
      (update (some ⟨"1", .json (.obj [("u", Json.obj [("x", Json.num 1), ("y", Json.num 2)])])⟩)
        (.ok ()) (.obj [("u", Json.obj [("x", Json.num 9)])])).2 =
        [Wire.json (.obj (shallowMerge (.obj [("u", Json.obj [("x", Json.num 1), ("y", Json.num 2)])])
          (.obj [("u", Json.obj [("x", Json.num 9)])])))] ∧
      getKey (shallowMerge (.obj [("u", Json.obj [("x", Json.num 1), ("y", Json.num 2)])])
          (.obj [("u", Json.obj [("x", Json.num 9)])])) "u" =
        (getKey [("u", Json.obj [("x", Json.num 9)])] "u").or
          (getKey [("u", Json.obj [("x", Json.num 1), ("y", Json.num 2)])] "u")) ∧
    shallowMerge (.obj [("u", Json.obj [("x", Json.num 1), ("y", Json.num 2)])])
        (.obj [("u", Json.obj [("x", Json.num 9)])]) =
      [("u", Json.obj [("x", Json.num 9)])] ∧
    shallowMerge (.obj [("a", Json.num 1), ("b", Json.num 2)])
        (.obj [("b", Json.num 3)]) =
      [("a", Json.num 1), ("b", Json.num 3)] :=
  ⟨rfl, rfl,
    update_shallow_merge "1" [("u", Json.obj [("x", Json.num 1), ("y", Json.num 2)])]
      [("u", Json.obj [("x", Json.num 9)])] "u" rfl rfl,
    rfl, rfl⟩

/-- C5: mutation-failure asymmetry — a rejected edit call inside `update` is
caught and downgraded to the returned value `false` (no exception escapes),
while a rejected delete call inside `delete` is not caught and propagates as
the overall error. -/
theorem mutation_failure_asymmetry (m : Message) (d : Json) (e : String) :
    (update (some m) (.error e) d).1 = .ok false ∧
    delete (some m) (.error e) = (.error e, 1) := by
  constructor
  · cases hp : parseContent m.content <;> simp [update, hp]
  · rfl

/-- C7: update fail-fast — on an absent message, and likewise on a message
whose envelope fails to parse, `update` returns `false` without ever
invoking the edit primitive. -/
theorem update_fail_fast (eo : Except String Unit) (d : Json)
    (id s : String) :
    update none eo d = (.ok false, []) ∧
    update (some ⟨id, .corrupt s⟩) eo d = (.ok false, []) :=
  ⟨rfl, rfl⟩

/-- C8: delete behavior — on an absent message `delete` returns `false`
without invoking the delete primitive; on an existing message it invokes the
primitive exactly once, returning `true` when the primitive succeeds. -/
theorem delete_behavior (del : Except String Unit) (m : Message) :
    delete none del = (.ok false, 0) ∧
    delete (some m) (.ok ()) = (.ok true, 1) ∧
    (delete (some m) del).2 = 1 := by
  refine ⟨rfl, rfl, ?_⟩
  cases del <;> rfl

/-- C9: absence normalization — every rejection of the underlying fetch is
turned into an absent result by the gateway's `fetchMessageById`, and
`findById` returns the same `none` for a failed fetch and for a fetched
message whose envelope fails to parse, so callers cannot tell not-found from
corrupt. -/
theorem absence_normalization (err id s : String) :
    DiscordClient.fetchMessageById (.error err) = none ∧
    findByIdFromRaw (.error err) = none ∧
    findByIdFromRaw (.ok ⟨id, .corrupt s⟩) = none :=
  ⟨rfl, rfl, rfl⟩

/-- C10: scalar envelopes — an envelope parsing to a non-string JSON scalar
(`null`, boolean or number) is neither skipped by `findAll` nor treated as
absent by `findById`: both return a document whose only field is the
synthesized id, since spreading a scalar contributes no keys. -/
theorem scalar_envelope_doc (id : String) (v : Json)
    (h : Json.isScalar v = true) :
    findById (some ⟨id, .json v⟩) = some [("id", Json.str id)] ∧
    (findAll (fun _ => [⟨id, .json v⟩]) 1).1 = [[("id", Json.str id)]] := by
  cases v with
  | null => exact ⟨rfl, rfl⟩
  | bool b => exact ⟨rfl, rfl⟩
  | num n => exact ⟨rfl, rfl⟩
  | str s => simp [Json.isScalar] at h
  | arr xs => simp [Json.isScalar] at h
  | obj fs => simp [Json.isScalar] at h

/-- Witness for C10 at the scalar envelope `5` under message id "7". -/
theorem scalar_envelope_doc_witness :
    Json.isScalar (Json.num 5) = true ∧
    (findById (some ⟨"7", .json (Json.num 5)⟩) = some [("id", Json.str "7")] ∧
      (findAll (fun _ => [⟨"7", .json (Json.num 5)⟩]) 1).1 =
        [[("id", Json.str "7")]]) :=
  ⟨rfl, scalar_envelope_doc "7" (Json.num 5) rfl⟩

end DiscordRepository
